import Mathlib

/-!
Verification of the online-shopping dashboard script (src/my_project/app.py).

The script loads a CSV into a pandas dataframe, coerces two columns
(Order Date to datetime, Total Amount to numeric), drops rows with nulls in
the required columns (Total Amount, City) that exist, and then computes
read-only aggregates (value counts, group sums, arg-max lookups, normalized
distributions) in three button-triggered blocks.

We embed the dataframe shallowly: a table is a list of column names plus a
list of rows, each row a list of cells; a cell is a string, a rational number
(modelling pandas' numeric values), a calendar date (modelling a parsed
timestamp at day granularity, which is the granularity the script uses), a
year-month period (the result of dt.to_period applied for the Month column),
or null (modelling NaN/NaT).
-/

namespace OnlineShopping

/-- A dataframe cell: string, numeric (pandas float modelled as a rational),
parsed date, year-month period, or null (NaN/NaT). -/
inductive Cell where
  | str (s : String)
  | num (q : ℚ)
  | date (y m d : Nat)
  | period (y m : Nat)
  | null
deriving DecidableEq

/-- Whether a cell is null (pandas isna). -/
def Cell.isNull : Cell → Bool
  | .null => true
  | _ => false

/-- Numeric view of a cell, as pandas uses for summing a numeric column. -/
def cellNum : Cell → Option ℚ
  | .num q => some q
  | _ => none

/-- A dataframe: named columns and rows of cells, aligned positionally. -/
structure Table where
  columns : List String
  rows : List (List Cell)
deriving DecidableEq

/-- Index of the first column with the given name, as pandas column lookup. -/
def colIdx (cols : List String) (c : String) : Option Nat :=
  match cols with
  | [] => none
  | x :: xs => if x = c then some 0 else (colIdx xs c).map (· + 1)

/-- The cell of row r in column c (null when the column is absent or the row
is short). -/
def getCell (cols : List String) (r : List Cell) (c : String) : Cell :=
  match colIdx cols c with
  | some i => r.getD i Cell.null
  | none => Cell.null

/-- Apply f to the cell at position i of a row, as a column-wise assignment
does to each row. -/
def updAt (f : Cell → Cell) : Nat → List Cell → List Cell
  | _, [] => []
  | 0, x :: xs => f x :: xs
  | i + 1, x :: xs => x :: updAt f i xs

/-- Column-wise map: df[c] = f(df[c]) for a column already present. -/
def mapColumn (t : Table) (c : String) (f : Cell → Cell) : Table :=
  match colIdx t.columns c with
  | some i => ⟨t.columns, t.rows.map (updAt f i)⟩
  | none => t

/-- Numeric value of a decimal digit character. -/
def digitVal (c : Char) : Option Nat :=
  if c.isDigit then some (c.toNat - 48) else none

/-- Parse a nonempty all-digit character list as a natural number. -/
def parseNatCore (l : List Char) : Option Nat :=
  match l with
  | [] => none
  | _ =>
    l.foldl
      (fun acc c =>
        match acc, digitVal c with
        | some n, some d => some (n * 10 + d)
        | _, _ => none)
      (some 0)

/-- Parse an ISO-style date string YYYY-MM-DD (the layout of the dataset's
Order Date column); anything else fails, mirroring errors="coerce". -/
def parseDate (s : String) : Option (Nat × Nat × Nat) :=
  match s.split (fun c => c = '-') with
  | [ys, ms, ds] =>
    match parseNatCore ys.toList, parseNatCore ms.toList, parseNatCore ds.toList with
    | some y, some m, some d =>
      if 1 ≤ m ∧ m ≤ 12 ∧ 1 ≤ d ∧ d ≤ 31 then some (y, m, d) else none
    | _, _, _ => none
  | _ => none

/-- Parse an optionally signed decimal numeral (the layout of the dataset's
Total Amount column) as a rational; anything else fails, mirroring
errors="coerce". -/
def parseRat (s : String) : Option ℚ :=
  let core : List Char → Option ℚ := fun l =>
    match l.span (fun c => c ≠ '.') with
    | (ip, []) => (parseNatCore ip).map (fun n => (n : ℚ))
    | (ip, _ :: fp) =>
      match parseNatCore ip, parseNatCore fp with
      | some n, some f => some ((n : ℚ) + (f : ℚ) / ((10 : ℚ) ^ fp.length))
      | _, _ => none
  match s.toList with
  | '-' :: rest => (core rest).map (fun q => -q)
  | l => core l

/-- pd.to_datetime with errors="coerce" on a cell: strings are parsed
(unparseable becomes null), datetimes and nulls pass through; other cell
kinds do not occur in the Order Date column and coerce to null. -/
def toDatetime (c : Cell) : Cell :=
  match c with
  | .str s =>
    match parseDate s with
    | some (y, m, d) => .date y m d
    | none => .null
  | .date y m d => .date y m d
  | .null => .null
  | _ => .null

/-- pd.to_numeric with errors="coerce" on a cell: strings are parsed
(unparseable becomes null), numerics and nulls pass through; other cell
kinds do not occur in the Total Amount column and coerce to null. -/
def toNumeric (c : Cell) : Cell :=
  match c with
  | .str s =>
    match parseRat s with
    | some q => .num q
    | none => .null
  | .num q => .num q
  | .null => .null
  | _ => .null

/-- app.py lines 21-22: coerce Order Date to datetime when the column
exists. -/
def coerceDates (t : Table) : Table :=
  if "Order Date" ∈ t.columns then mapColumn t "Order Date" toDatetime else t

/-- app.py lines 25-26: coerce Total Amount to numeric when the column
exists. -/
def coerceAmounts (t : Table) : Table :=
  if "Total Amount" ∈ t.columns then mapColumn t "Total Amount" toNumeric else t

/-- Row-keep predicate of df.dropna(subset=colsToCheck): every checked
column's cell is non-null. -/
def keepRow (cols : List String) (colsToCheck : List String) (r : List Cell) : Bool :=
  colsToCheck.all (fun c => !(getCell cols r c).isNull)

/-- app.py lines 29-31: drop rows with a null in any of the required columns
(Total Amount, City) that actually exist. -/
def dropRequiredNulls (t : Table) : Table :=
  let colsToCheck := ["Total Amount", "City"].filter (fun c => decide (c ∈ t.columns))
  if colsToCheck.isEmpty then t
  else ⟨t.columns, t.rows.filter (keepRow t.columns colsToCheck)⟩

/-- app.py lines 16-33, load_and_clean_data: the cleaning transform applied
to the table parsed from the CSV (the file read itself is outside the
embedding; the transform is a pure function of the parsed table). -/
def load_and_clean_data (t : Table) : Table :=
  dropRequiredNulls (coerceAmounts (coerceDates t))

/-- The cells of one column, in row order. -/
def columnCells (t : Table) (c : String) : List Cell :=
  t.rows.map (fun r => getCell t.columns r c)

/-- The non-null cells of one column (pandas dropna semantics of
value_counts and groupby keys). -/
def nonNullCells (t : Table) (c : String) : List Cell :=
  (columnCells t c).filter (fun x => !x.isNull)

/-- Constructor rank used to order cells of different kinds. -/
def Cell.rank : Cell → Nat
  | .null => 0
  | .num _ => 1
  | .str _ => 2
  | .date _ _ _ => 3
  | .period _ _ => 4

/-- Total Boolean comparison on cells, mirroring pandas' ascending key sort
within one kind (string lexicographic, numeric, chronological). -/
def cellLe (a b : Cell) : Bool :=
  match a, b with
  | .str s, .str u =>
    match compare s u with
    | .gt => false
    | _ => true
  | .num x, .num y => decide (x ≤ y)
  | .date y1 m1 d1, .date y2 m2 d2 =>
    decide (y1 < y2) || (decide (y1 = y2) &&
      (decide (m1 < m2) || (decide (m1 = m2) && decide (d1 ≤ d2))))
  | .period y1 m1, .period y2 m2 =>
    decide (y1 < y2) || (decide (y1 = y2) && decide (m1 ≤ m2))
  | a, b => decide (a.rank ≤ b.rank)

/-- Insert an element into a sorted list, keeping earlier elements first
among ties (stable insertion). -/
def insertLe {α : Type} (le : α → α → Bool) (a : α) : List α → List α
  | [] => [a]
  | b :: l => if le a b then a :: b :: l else b :: insertLe le a l

/-- Stable insertion sort, modelling the sorting pandas applies to
value_counts (by count) and to groupby keys (ascending). -/
def sortBy {α : Type} (le : α → α → Bool) : List α → List α
  | [] => []
  | a :: l => insertLe le a (sortBy le l)

/-- Count of each distinct value of a list, first-occurrence keyed. -/
def tally (l : List Cell) : List (Cell × Nat) :=
  l.dedup.map (fun v => (v, l.count v))

/-- Series.value_counts of a column: frequency of each distinct non-null
value, sorted by count descending (app.py lines 72, 97, 128, 138, 142). -/
def value_counts (t : Table) (c : String) : List (Cell × Nat) :=
  sortBy (fun a b => decide (b.2 ≤ a.2)) (tally (nonNullCells t c))

/-- Sum of the counts of a value_counts result. -/
def sumCounts (l : List (Cell × Nat)) : Nat :=
  (l.map Prod.snd).sum

/-- Sum of the values of a keyed rational aggregate. -/
def sumVals (l : List (Cell × ℚ)) : ℚ :=
  (l.map Prod.snd).sum

/-- Scan keeping the first key whose value is maximal (pandas idxmax). -/
def idxmaxGo {α : Type} (lt : α → α → Bool) (k : Cell) (v : α) : List (Cell × α) → Cell
  | [] => k
  | p :: rest => if lt v p.2 then idxmaxGo lt p.1 p.2 rest else idxmaxGo lt k v rest

/-- Series.idxmax: first key attaining the maximum value; raises ValueError
on an empty series, as pandas does. -/
def idxmaxBy {α : Type} (lt : α → α → Bool) : List (Cell × α) → Except String Cell
  | [] => .error "attempt to get argmax of an empty sequence"
  | p :: rest => .ok (idxmaxGo lt p.1 p.2 rest)

/-- df.groupby(key)[val].sum(): distinct non-null key cells in ascending
order, each with the sum of the numeric val cells of its rows (NaN
contributing nothing, as skipna summation does). -/
def groupbySum (t : Table) (key val : String) : List (Cell × ℚ) :=
  (sortBy cellLe (nonNullCells t key).dedup).map (fun k =>
    (k, ((t.rows.filter (fun r => decide (getCell t.columns r key = k))).map
      (fun r => (cellNum (getCell t.columns r val)).getD 0)).sum))

/-- Series.sum of a whole column (skipna: nulls contribute nothing). -/
def seriesSum (t : Table) (c : String) : ℚ :=
  (t.rows.map (fun r => (cellNum (getCell t.columns r c)).getD 0)).sum

/-- dt.to_period applied to an Order Date cell: truncate to year-month;
null (NaT) stays null. -/
def toPeriodM : Cell → Cell
  | .date y m _ => .period y m
  | _ => .null

/-- app.py line 106: df["Month"] = df["Order Date"].dt.to_period("M").
A pandas column assignment overwrites an existing Month column in place
and otherwise appends a new column at the end. -/
def addMonthColumn (t : Table) : Table :=
  match colIdx t.columns "Month" with
  | some i =>
    ⟨t.columns,
      t.rows.map (fun r => updAt (fun _ => toPeriodM (getCell t.columns r "Order Date")) i r)⟩
  | none =>
    ⟨t.columns ++ ["Month"],
      t.rows.map (fun r => r ++ [toPeriodM (getCell t.columns r "Order Date")])⟩

/-- app.py lines 106-107: the monthly sales aggregate, computed on the table
after the Month column assignment. -/
def monthly_sales (t : Table) : List (Cell × ℚ) :=
  groupbySum (addMonthColumn t) "Month" "Total Amount"

/-- Strict comparison on counts, used by idxmax over value counts. -/
def natLtB (a b : Nat) : Bool := decide (a < b)

/-- Strict comparison on sums, used by idxmax over group sums. -/
def ratLtB (a b : ℚ) : Bool := decide (a < b)

/-- app.py lines 127-130: most frequent Product Category, or the "N/A"
placeholder when the column is absent. -/
def top_category (t : Table) : Except String Cell :=
  if "Product Category" ∈ t.columns then
    idxmaxBy natLtB (value_counts t "Product Category")
  else .ok (.str "N/A")

/-- app.py lines 132-135: city with the highest summed Total Amount, or the
"N/A" placeholder when either column is absent. -/
def top_city (t : Table) : Except String Cell :=
  if "City" ∈ t.columns ∧ "Total Amount" ∈ t.columns then
    idxmaxBy ratLtB (groupbySum t "City" "Total Amount")
  else .ok (.str "N/A")

/-- app.py lines 137-140: most frequent Payment mode, or the "N/A"
placeholder when the column is absent. -/
def top_payment (t : Table) : Except String Cell :=
  if "Payment mode" ∈ t.columns then
    idxmaxBy natLtB (value_counts t "Payment mode")
  else .ok (.str "N/A")

/-- Normalize value counts to percentages:
value_counts(normalize=True) * 100. -/
def normalizePct (vc : List (Cell × Nat)) : List (Cell × ℚ) :=
  vc.map (fun p => (p.1, (p.2 : ℚ) / (sumCounts vc : ℚ) * 100))

/-- app.py line 142: the normalized gender distribution, or an empty
distribution when the Gender column is absent. -/
def gender_dist (t : Table) : List (Cell × ℚ) :=
  if "Gender" ∈ t.columns then normalizePct (value_counts t "Gender") else []

/-- Lookup with default 0, as gender_dist.get(key, 0). -/
def distGet (d : List (Cell × ℚ)) (k : String) : ℚ :=
  match d.find? (fun p => decide (p.1 = Cell.str k)) with
  | some p => p.2
  | none => 0

/-- app.py line 143: mean Age (skipna; the mean of an empty column is NaN),
or the "N/A" placeholder when the column is absent. -/
def avg_age (t : Table) : Cell :=
  if "Age" ∈ t.columns then
    let xs := (columnCells t "Age").filterMap cellNum
    if xs.length = 0 then Cell.null else Cell.num (xs.sum / (xs.length : ℚ))
  else Cell.str "N/A"

/-- The rendered summary insights (app.py lines 145-153). -/
structure Insights where
  topCategory : Cell
  topCity : Cell
  topPayment : Cell
  genderMale : ℚ
  genderFemale : ℚ
  avgAge : Cell
deriving DecidableEq

/-- app.py lines 124-153, the Summary Insights block: each arg-max lookup
may raise (propagated through Except); the block performs no assignment to
df, so the table it leaves behind is the one it was given. -/
def showSummaryInsights (t : Table) : Except String Insights := do
  let tc ← top_category t
  let tcity ← top_city t
  let tp ← top_payment t
  let gd := gender_dist t
  pure ⟨tc, tcity, tp, distGet gd "Male", distGet gd "Female", avg_age t⟩

/-- Missing-value counts per column (app.py line 55, df.isnull().sum()). -/
def missingValueCounts (t : Table) : List (String × Nat) :=
  t.columns.map (fun c => (c, (columnCells t c).countP Cell.isNull))

/-- app.py lines 53-64, the Statistics block: it only reads df (isnull
sums, describe, info) and performs no assignment, so the table it leaves
behind is the one it was given. -/
def showStatistics (t : Table) : List (String × Nat) × Table :=
  (missingValueCounts t, t)

/-- app.py lines 67-121, the Visualizations block: the only assignment to
df in any action block is line 106, the Month column assignment, guarded by
both Order Date and Total Amount existing; every chart is otherwise a
read-only projection. The result is the table the block leaves behind. -/
def showVisualizationsTable (t : Table) : Table :=
  if "Order Date" ∈ t.columns ∧ "Total Amount" ∈ t.columns then addMonthColumn t
  else t

/-- app.py lines 124-153 leave df untouched: the table after the Summary
Insights block. -/
def showSummaryInsightsTable (t : Table) : Table :=
  t

/-- Fallible column access df[c]: pandas subscripting raises KeyError when
the column is absent. -/
def colGet (t : Table) (c : String) : Except String (List Cell) :=
  if c ∈ t.columns then Except.ok (columnCells t c) else Except.error ("KeyError: " ++ c)

/-- app.py lines 69-74, the category-popularity chart block: guarded by the
Product Category column existing; inside the guard the subscript succeeds
and value_counts orders the categories; skipped (no chart) when the column
is absent. -/
def categoryChart (t : Table) : Except String (Option (List (Cell × Nat))) :=
  if "Product Category" ∈ t.columns then do
    let _ ← colGet t "Product Category"
    pure (some (value_counts t "Product Category"))
  else pure none

/-- app.py lines 76-80, the sales-by-city boxplot block: guarded by both
Total Amount and City existing; the chart reads the two columns. -/
def cityBoxChart (t : Table) : Except String (Option (List Cell × List Cell)) :=
  if "Total Amount" ∈ t.columns ∧ "City" ∈ t.columns then do
    let ta ← colGet t "Total Amount"
    let city ← colGet t "City"
    pure (some (ta, city))
  else pure none

/-- app.py lines 82-86, the gender-distribution chart block: guarded by the
Gender column existing. -/
def genderChart (t : Table) : Except String (Option (List (Cell × Nat))) :=
  if "Gender" ∈ t.columns then do
    let _ ← colGet t "Gender"
    pure (some (value_counts t "Gender"))
  else pure none

/-- app.py lines 88-92, the age-histogram block: guarded by the Age column
existing; the chart reads the Age column. -/
def ageChart (t : Table) : Except String (Option (List Cell)) :=
  if "Age" ∈ t.columns then do
    let age ← colGet t "Age"
    pure (some age)
  else pure none

/-- app.py lines 94-102, the payment-mode pie block: guarded by the Payment
mode column existing. -/
def paymentChart (t : Table) : Except String (Option (List (Cell × Nat))) :=
  if "Payment mode" ∈ t.columns then do
    let _ ← colGet t "Payment mode"
    pure (some (value_counts t "Payment mode"))
  else pure none

/-- app.py lines 104-113, the monthly-trend block: guarded by Order Date and
Total Amount existing; inside the guard it reads Order Date, writes the
Month column and groups by it. Returns the chart data (when drawn) together
with the table the block leaves behind. -/
def monthlyChart (t : Table) : Except String (Option (List (Cell × ℚ)) × Table) :=
  if "Order Date" ∈ t.columns ∧ "Total Amount" ∈ t.columns then do
    let _ ← colGet t "Order Date"
    let _ ← colGet (addMonthColumn t) "Month"
    let _ ← colGet (addMonthColumn t) "Total Amount"
    pure (some (monthly_sales t), addMonthColumn t)
  else pure (none, t)

/-- Columns of numeric dtype (every cell numeric or NaN), the input of
df.select_dtypes at app.py line 116; the heatmap block (lines 115-121)
subscripts no column by name and so cannot raise a lookup error. -/
def numericColumnNames (t : Table) : List String :=
  t.columns.filter (fun c => (columnCells t c).all (fun x => (cellNum x).isSome || x.isNull))

/-- The data of the rendered visualizations (app.py lines 67-121): one field
per chart, absent when its block was skipped, plus the numeric columns fed
to the correlation heatmap. -/
structure VizData where
  categoryOrder : Option (List (Cell × Nat))
  cityBox : Option (List Cell × List Cell)
  genderCounts : Option (List (Cell × Nat))
  ageCells : Option (List Cell)
  paymentCounts : Option (List (Cell × Nat))
  monthly : Option (List (Cell × ℚ))
  corrColumns : List String

/-- app.py lines 67-121, the Visualizations block as run: the guarded chart
computations in source order, any raised lookup error propagating; the table
component is the dataframe the block leaves behind (changed only by the
Month assignment of line 106). -/
def showVisualizations (t : Table) : Except String (VizData × Table) := do
  let co ← categoryChart t
  let cb ← cityBoxChart t
  let gc ← genderChart t
  let ac ← ageChart t
  let pc ← paymentChart t
  let mt ← monthlyChart t
  pure (⟨co, cb, gc, ac, pc, mt.1, numericColumnNames mt.2⟩, mt.2)

/-- Row-level view of the Order Date coercion: apply toDatetime at the
Order Date position when that column exists. -/
def cdRow (cols : List String) (r : List Cell) : List Cell :=
  match colIdx cols "Order Date" with
  | some i => updAt toDatetime i r
  | none => r

/-- Row-level view of the Total Amount coercion: apply toNumeric at the
Total Amount position when that column exists. -/
def caRow (cols : List String) (r : List Cell) : List Cell :=
  match colIdx cols "Total Amount" with
  | some i => updAt toNumeric i r
  | none => r

/-- The required columns that exist, as computed at app.py line 29. -/
def chkCols (cols : List String) : List String :=
  ["Total Amount", "City"].filter (fun c => decide (c ∈ cols))

/-- Stated from the spec's words, for comparison with the code: a row is
retained exactly when each of Total Amount and City that exists in the
source holds a non-null value. -/
def requiredNonNull (cols : List String) (r : List Cell) : Bool :=
  (!(decide ("Total Amount" ∈ cols)) || !(getCell cols r "Total Amount").isNull) &&
    (!(decide ("City" ∈ cols)) || !(getCell cols r "City").isNull)

/-- Stated from the spec's words, for comparison with the code: the cleaned
table is the coerced input restricted to the rows whose existing required
columns are non-null. -/
def cleanedSpecTable (t : Table) : Table :=
  let s := coerceAmounts (coerceDates t)
  ⟨s.columns, s.rows.filter (requiredNonNull s.columns)⟩

/-- The spec's three-row sales-by-city example table. -/
def exampleCityTable : Table :=
  ⟨["City", "Total Amount"],
    [[Cell.str "Delhi", Cell.num 100],
     [Cell.str "Delhi", Cell.num 50],
     [Cell.str "Pune", Cell.num 200]]⟩

/-- A source table whose cleaned form retains a null Product Category. -/
def nullCategoryTable : Table :=
  ⟨["Product Category"], [[Cell.null], [Cell.str "Books"]]⟩

/-- A source table (with its two coercible columns already typed, as read_csv
infers them) whose cleaned form retains a row with null Order Date and Total
Amount 0 alongside a dated row. -/
def nullDateZeroTable : Table :=
  ⟨["Order Date", "Total Amount", "City"],
    [[Cell.null, Cell.num 0, Cell.str "X"],
     [Cell.date 2024 1 15, Cell.num 10, Cell.str "Delhi"]]⟩

/-- A source table with typed Order Date and Total Amount cells. -/
def datedTable : Table :=
  ⟨["Order Date", "Total Amount", "City"],
    [[Cell.date 2024 1 15, Cell.num 10, Cell.str "Delhi"]]⟩

/-- A small table with every dataset column, used to instantiate the
universal theorems. -/
def fullTable : Table :=
  ⟨["Order Date", "Total Amount", "City", "Product Category", "Gender", "Age",
    "Payment mode"],
    [[Cell.date 2024 1 15, Cell.num 10, Cell.str "Delhi",
      Cell.str "Books", Cell.str "Male", Cell.num 30, Cell.str "Card"],
     [Cell.date 2024 2 20, Cell.num 4, Cell.str "Pune",
      Cell.str "Toys", Cell.str "Female", Cell.num 25, Cell.str "Cash"]]⟩

/-- A table whose required columns exist but which has no rows. -/
def emptyRowsTable : Table :=
  ⟨["Product Category", "City", "Total Amount", "Payment mode"], []⟩

/-- A table with no columns and no rows. -/
def emptyTable : Table :=
  ⟨[], []⟩

end OnlineShopping

deriving instance DecidableEq for Except

namespace OnlineShopping

theorem updAt_nil (f : Cell → Cell) (i : Nat) : updAt f i [] = [] := by
  cases i <;> rfl

theorem updAt_length (f : Cell → Cell) (i : Nat) (r : List Cell) :
    (updAt f i r).length = r.length := by
  induction r generalizing i with
  | nil => cases i <;> rfl
  | cons x xs ih =>
    cases i with
    | zero => rfl
    | succ j => simp [updAt, ih]

theorem updAt_idem (f : Cell → Cell) (hf : ∀ x, f (f x) = f x) (i : Nat) (r : List Cell) :
    updAt f i (updAt f i r) = updAt f i r := by
  induction r generalizing i with
  | nil => cases i <;> rfl
  | cons x xs ih =>
    cases i with
    | zero => simp [updAt, hf]
    | succ j => simp [updAt, ih]

theorem updAt_comm (f g : Cell → Cell) (i j : Nat) (hij : i ≠ j) (r : List Cell) :
    updAt f i (updAt g j r) = updAt g j (updAt f i r) := by
  induction r generalizing i j with
  | nil => simp [updAt_nil]
  | cons x xs ih =>
    cases i with
    | zero =>
      cases j with
      | zero => exact absurd rfl hij
      | succ j' => simp [updAt]
    | succ i' =>
      cases j with
      | zero => simp [updAt]
      | succ j' =>
        simp only [updAt, List.cons.injEq, true_and]
        exact ih i' j' (fun h => hij (by omega))

theorem getD_updAt_ne (f : Cell → Cell) (i j : Nat) (hij : i ≠ j) (r : List Cell) (d : Cell) :
    (updAt f i r).getD j d = r.getD j d := by
  induction r generalizing i j with
  | nil => simp [updAt_nil]
  | cons x xs ih =>
    cases i with
    | zero =>
      cases j with
      | zero => exact absurd rfl hij
      | succ j' => simp [updAt]
    | succ i' =>
      cases j with
      | zero => simp [updAt]
      | succ j' => simpa [updAt] using ih i' j' (fun h => hij (by omega))

theorem updAt_eq_self_of_fix (f : Cell → Cell) (i : Nat) (r : List Cell)
    (h : f (r.getD i Cell.null) = r.getD i Cell.null) : updAt f i r = r := by
  induction r generalizing i with
  | nil => cases i <;> rfl
  | cons x xs ih =>
    cases i with
    | zero => simpa [updAt] using h
    | succ j => simpa [updAt] using ih j h

theorem colIdx_lt (cols : List String) (c : String) (i : Nat) (h : colIdx cols c = some i) :
    i < cols.length := by
  induction cols generalizing i with
  | nil => simp [colIdx] at h
  | cons x xs ih =>
    rw [colIdx] at h
    by_cases hx : x = c
    · rw [if_pos hx] at h
      simp only [Option.some.injEq] at h
      simp
      omega
    · rw [if_neg hx] at h
      cases hc : colIdx xs c with
      | none => rw [hc] at h; simp at h
      | some j =>
        rw [hc] at h
        have h2 : j + 1 = i := by simpa using h
        have := ih j hc
        simp only [List.length_cons]
        omega

theorem colIdx_getD (cols : List String) (c : String) (i : Nat) (h : colIdx cols c = some i) :
    cols.getD i "" = c := by
  induction cols generalizing i with
  | nil => simp [colIdx] at h
  | cons x xs ih =>
    rw [colIdx] at h
    by_cases hx : x = c
    · rw [if_pos hx] at h
      simp only [Option.some.injEq] at h
      rw [← h]
      simpa using hx
    · rw [if_neg hx] at h
      cases hc : colIdx xs c with
      | none => rw [hc] at h; simp at h
      | some j =>
        rw [hc] at h
        have h2 : j + 1 = i := by simpa using h
        rw [← h2]
        simpa using ih j hc

theorem colIdx_ne (cols : List String) (c c' : String) (i j : Nat)
    (hi : colIdx cols c = some i) (hj : colIdx cols c' = some j) (hcc : c ≠ c') : i ≠ j := by
  intro hij
  exact hcc ((colIdx_getD cols c i hi).symm.trans (by rw [hij]; exact colIdx_getD cols c' j hj))

theorem colIdx_eq_none_iff (cols : List String) (c : String) :
    colIdx cols c = none ↔ c ∉ cols := by
  induction cols with
  | nil => simp [colIdx]
  | cons x xs ih =>
    by_cases hx : x = c
    · simp [colIdx, hx]
    · simp [colIdx, hx, ih, Ne.symm hx]

theorem colIdx_isSome_of_mem (cols : List String) (c : String) (h : c ∈ cols) :
    ∃ i, colIdx cols c = some i := by
  cases hc : colIdx cols c with
  | none => exact absurd ((colIdx_eq_none_iff cols c).mp hc) (not_not_intro h)
  | some i => exact ⟨i, rfl⟩

theorem toDatetime_idem (c : Cell) : toDatetime (toDatetime c) = toDatetime c := by
  cases c with
  | str s =>
    simp only [toDatetime]
    cases parseDate s with
    | none => rfl
    | some p => rfl
  | _ => rfl

theorem toNumeric_idem (c : Cell) : toNumeric (toNumeric c) = toNumeric c := by
  cases c with
  | str s =>
    simp only [toNumeric]
    cases parseRat s with
    | none => rfl
    | some q => rfl
  | _ => rfl

theorem coerceDates_spec (t : Table) :
    coerceDates t = ⟨t.columns, t.rows.map (cdRow t.columns)⟩ := by
  unfold coerceDates
  by_cases h : "Order Date" ∈ t.columns
  · obtain ⟨i, hi⟩ := colIdx_isSome_of_mem t.columns _ h
    simp only [if_pos h, mapColumn, hi]
    congr 1
    exact List.map_congr_left (fun r _ => by simp [cdRow, hi])
  · have hn : colIdx t.columns "Order Date" = none := (colIdx_eq_none_iff _ _).mpr h
    simp only [if_neg h]
    cases t with
    | mk cols rows =>
      congr 1
      have : rows.map (cdRow cols) = rows.map id :=
        List.map_congr_left (fun r _ => by simp [cdRow, hn])
      rw [this, List.map_id]

theorem coerceAmounts_spec (t : Table) :
    coerceAmounts t = ⟨t.columns, t.rows.map (caRow t.columns)⟩ := by
  unfold coerceAmounts
  by_cases h : "Total Amount" ∈ t.columns
  · obtain ⟨i, hi⟩ := colIdx_isSome_of_mem t.columns _ h
    simp only [if_pos h, mapColumn, hi]
    congr 1
    exact List.map_congr_left (fun r _ => by simp [caRow, hi])
  · have hn : colIdx t.columns "Total Amount" = none := (colIdx_eq_none_iff _ _).mpr h
    simp only [if_neg h]
    cases t with
    | mk cols rows =>
      congr 1
      have : rows.map (caRow cols) = rows.map id :=
        List.map_congr_left (fun r _ => by simp [caRow, hn])
      rw [this, List.map_id]

theorem keepRow_nil (cols : List String) (r : List Cell) : keepRow cols [] r = true := rfl

theorem dropRequiredNulls_spec (t : Table) :
    dropRequiredNulls t = ⟨t.columns, t.rows.filter (keepRow t.columns (chkCols t.columns))⟩ := by
  cases t with
  | mk cols rows =>
    unfold dropRequiredNulls chkCols
    by_cases h : (["Total Amount", "City"].filter (fun c => decide (c ∈ cols))).isEmpty
    · rw [List.isEmpty_iff] at h
      simp only [h, List.isEmpty_nil, if_true]
      congr 1
      symm
      apply List.filter_eq_self.mpr
      intro r _
      exact keepRow_nil cols r
    · rw [if_neg h]

theorem clean_spec (t : Table) :
    load_and_clean_data t =
      ⟨t.columns,
        (t.rows.map (fun r => caRow t.columns (cdRow t.columns r))).filter
          (keepRow t.columns (chkCols t.columns))⟩ := by
  unfold load_and_clean_data
  rw [coerceDates_spec, coerceAmounts_spec, dropRequiredNulls_spec]
  simp only [List.map_map, Function.comp_def]

theorem keepRow_eq_requiredNonNull (cols : List String) (r : List Cell) :
    keepRow cols (chkCols cols) r = requiredNonNull cols r := by
  unfold keepRow chkCols requiredNonNull
  by_cases hTA : "Total Amount" ∈ cols <;> by_cases hC : "City" ∈ cols <;>
    simp [hTA, hC]

theorem coerceRow_idem (cols : List String) (r : List Cell) :
    caRow cols (cdRow cols (caRow cols (cdRow cols r))) = caRow cols (cdRow cols r) := by
  cases hod : colIdx cols "Order Date" with
  | none =>
    cases hta : colIdx cols "Total Amount" with
    | none => simp only [caRow, cdRow, hod, hta]
    | some iTA =>
      simp only [caRow, cdRow, hod, hta]
      exact updAt_idem toNumeric toNumeric_idem iTA r
  | some iOD =>
    cases hta : colIdx cols "Total Amount" with
    | none =>
      simp only [caRow, cdRow, hod, hta]
      exact updAt_idem toDatetime toDatetime_idem iOD r
    | some iTA =>
      have hne : iOD ≠ iTA :=
        colIdx_ne cols "Order Date" "Total Amount" iOD iTA hod hta (by decide)
      simp only [caRow, cdRow, hod, hta]
      rw [updAt_comm toDatetime toNumeric iOD iTA hne,
        updAt_idem toDatetime toDatetime_idem iOD r,
        updAt_idem toNumeric toNumeric_idem iTA (updAt toDatetime iOD r)]

theorem clean_columns (t : Table) : (load_and_clean_data t).columns = t.columns := by
  rw [clean_spec]

end OnlineShopping

namespace OnlineShopping

/-- Claim C2: the cleaned table equals exactly the coerced input table
restricted to the rows whose Total Amount and City cells are non-null, for
whichever of those two columns exist in the source; in particular every
retained row has non-null values in the existing required columns, and no
row is dropped for a null in any other column (the filter tests nothing
else). -/
theorem claim_C2 (t : Table) : load_and_clean_data t = cleanedSpecTable t := by
  rw [clean_spec]
  simp only [cleanedSpecTable]
  rw [coerceDates_spec, coerceAmounts_spec]
  simp only [List.map_map, Function.comp_def]
  congr 1
  have hpq : keepRow t.columns (chkCols t.columns) = requiredNonNull t.columns :=
    funext (fun r => keepRow_eq_requiredNonNull t.columns r)
  rw [hpq]

/-- Claim C3: the cleaning transform is a pure function of the parsed input
table, so running it twice on the same file yields an identical table, and
applying it to an already-cleaned table leaves the table unchanged. -/
theorem claim_C3 (t : Table) :
    load_and_clean_data (load_and_clean_data t) = load_and_clean_data t := by
  rw [clean_spec t]
  rw [clean_spec]
  congr 1
  have hfix : ∀ r ∈ (t.rows.map (fun r => caRow t.columns (cdRow t.columns r))).filter
      (keepRow t.columns (chkCols t.columns)),
      caRow t.columns (cdRow t.columns r) = id r := by
    intro r hr
    have hr1 := (List.mem_filter.mp hr).1
    obtain ⟨r0, _, rfl⟩ := List.mem_map.mp hr1
    exact coerceRow_idem t.columns r0
  rw [List.map_congr_left hfix, List.map_id]
  apply List.filter_eq_self.mpr
  intro r hr
  exact (List.mem_filter.mp hr).2


end OnlineShopping

namespace OnlineShopping

theorem insertLe_perm {α : Type} (le : α → α → Bool) (a : α) (l : List α) :
    List.Perm (insertLe le a l) (a :: l) := by
  induction l with
  | nil => exact List.Perm.refl _
  | cons b l ih =>
    rw [insertLe]
    cases hle : le a b with
    | true => simp
    | false =>
      rw [if_neg Bool.false_ne_true]
      exact (List.Perm.cons b ih).trans (List.Perm.swap a b l)

theorem sortBy_perm {α : Type} (le : α → α → Bool) (l : List α) :
    List.Perm (sortBy le l) l := by
  induction l with
  | nil => exact List.Perm.refl _
  | cons a l ih =>
    rw [sortBy]
    exact (insertLe_perm le a (sortBy le l)).trans (List.Perm.cons a ih)

theorem sum_map_filter_split {β : Type} (f : β → ℚ) (p : β → Bool) (l : List β) :
    ((l.filter p).map f).sum + ((l.filter (fun x => !p x)).map f).sum = (l.map f).sum := by
  induction l with
  | nil => simp
  | cons x xs ih =>
    cases hx : p x with
    | true => simp [hx, ← ih]; ring
    | false => simp [hx, ← ih]; ring

theorem filter_eq_filter_of_imp {β : Type} (p q : β → Bool) (l : List β)
    (h : ∀ x, p x = true → q x = true) : (l.filter q).filter p = l.filter p := by
  rw [List.filter_filter]
  apply List.filter_congr
  intro x _
  cases hpx : p x with
  | true => simp [h x hpx]
  | false => simp

theorem sum_groups_eq {β : Type} (keyOf : β → Cell) (f : β → ℚ) :
    ∀ (ks : List Cell) (l : List β), ks.Nodup → (∀ x ∈ l, keyOf x ∈ ks) →
      (ks.map (fun k => ((l.filter (fun x => decide (keyOf x = k))).map f).sum)).sum
        = (l.map f).sum := by
  intro ks
  induction ks with
  | nil =>
    intro l _ hmem
    have hl : l = [] :=
      List.eq_nil_iff_forall_not_mem.mpr (fun x hx => by simpa using hmem x hx)
    rw [hl]
    simp
  | cons k ks ih =>
    intro l hnd hmem
    have hk : k ∉ ks := (List.nodup_cons.mp hnd).1
    have hnd2 : ks.Nodup := (List.nodup_cons.mp hnd).2
    have hmem2 : ∀ x ∈ l.filter (fun x => !(decide (keyOf x = k))), keyOf x ∈ ks := by
      intro x hx
      have hx2 := List.mem_filter.mp hx
      have hx3 : keyOf x ≠ k := by simpa using hx2.2
      cases List.mem_cons.mp (hmem x hx2.1) with
      | inl he => exact absurd he hx3
      | inr hm => exact hm
    have hstep : ∀ k2 ∈ ks,
        ((l.filter (fun x => decide (keyOf x = k2))).map f).sum
          = (((l.filter (fun x => !(decide (keyOf x = k)))).filter
              (fun x => decide (keyOf x = k2))).map f).sum := by
      intro k2 hk2
      have hkk : k2 ≠ k := fun he => hk (he ▸ hk2)
      rw [filter_eq_filter_of_imp (fun x => decide (keyOf x = k2))
        (fun x => !(decide (keyOf x = k))) l]
      intro x hx
      have : keyOf x = k2 := of_decide_eq_true hx
      simp [this, hkk]
    simp only [List.map_cons, List.sum_cons]
    rw [List.map_congr_left hstep]
    rw [ih (l.filter (fun x => !(decide (keyOf x = k)))) hnd2 hmem2]
    exact sum_map_filter_split f (fun x => decide (keyOf x = k)) l

theorem sumCounts_value_counts (t : Table) (c : String) :
    sumCounts (value_counts t c) = (nonNullCells t c).length := by
  unfold value_counts sumCounts
  have hperm :
      List.Perm (sortBy (fun a b => decide (b.2 ≤ a.2)) (tally (nonNullCells t c)))
        (tally (nonNullCells t c)) := sortBy_perm _ _
  rw [(hperm.map Prod.snd).sum_eq]
  unfold tally
  rw [List.map_map]
  simpa using List.sum_map_count_dedup_eq_length (nonNullCells t c)

/-- Claim C4 counterexample: a cleaned table with a Product Category column
in which one retained row has a null Product Category (cleaning only filters
Total Amount and City); value_counts drops nulls, so the counts sum to 1
while the table has 2 rows. -/
theorem claim_C4_counterexample :
    load_and_clean_data nullCategoryTable = nullCategoryTable ∧
    "Product Category" ∈ (load_and_clean_data nullCategoryTable).columns ∧
    sumCounts (value_counts (load_and_clean_data nullCategoryTable) "Product Category") ≠
      (load_and_clean_data nullCategoryTable).rows.length := by decide

/-- Claim C4 (amended): the sum of the per-category frequency counts equals
the number of rows whose Product Category cell is non-null; it equals the
total row count only when the column has no nulls among the retained rows. -/
theorem claim_C4_amended (t : Table) :
    sumCounts (value_counts t "Product Category") =
      t.rows.countP (fun r => !(getCell t.columns r "Product Category").isNull) := by
  rw [sumCounts_value_counts]
  unfold nonNullCells columnCells
  rw [← List.countP_eq_length_filter, List.countP_map]
  rfl

end OnlineShopping

namespace OnlineShopping

theorem sumVals_groupbySum_general (t : Table) (key val : String) :
    sumVals (groupbySum t key val) =
      ((t.rows.filter (fun r => !(getCell t.columns r key).isNull)).map
        (fun r => (cellNum (getCell t.columns r val)).getD 0)).sum := by
  unfold sumVals groupbySum
  rw [List.map_map]
  simp only [Function.comp_def]
  have hks_nodup : (sortBy cellLe (nonNullCells t key).dedup).Nodup :=
    ((sortBy_perm cellLe _).nodup_iff).mpr (List.nodup_dedup _)
  have hks_nonnull : ∀ k ∈ sortBy cellLe (nonNullCells t key).dedup, k.isNull = false := by
    intro k hk
    have h1 : k ∈ (nonNullCells t key).dedup := ((sortBy_perm cellLe _).mem_iff).mp hk
    have h2 : k ∈ nonNullCells t key := List.mem_dedup.mp h1
    have h3 := (List.mem_filter.mp h2).2
    simpa using h3
  have hstep : ∀ k ∈ sortBy cellLe (nonNullCells t key).dedup,
      ((t.rows.filter (fun r => decide (getCell t.columns r key = k))).map
        (fun r => (cellNum (getCell t.columns r val)).getD 0)).sum =
      (((t.rows.filter (fun r => !(getCell t.columns r key).isNull)).filter
          (fun r => decide (getCell t.columns r key = k))).map
        (fun r => (cellNum (getCell t.columns r val)).getD 0)).sum := by
    intro k hk
    rw [filter_eq_filter_of_imp (fun r => decide (getCell t.columns r key = k))
      (fun r => !(getCell t.columns r key).isNull) t.rows]
    intro r hr
    have he : getCell t.columns r key = k := of_decide_eq_true hr
    rw [he]
    simp [hks_nonnull k hk]
  rw [List.map_congr_left hstep]
  have hmem : ∀ r ∈ t.rows.filter (fun r => !(getCell t.columns r key).isNull),
      getCell t.columns r key ∈ sortBy cellLe (nonNullCells t key).dedup := by
    intro r hr
    have hr2 := List.mem_filter.mp hr
    apply ((sortBy_perm cellLe _).mem_iff).mpr
    apply List.mem_dedup.mpr
    unfold nonNullCells columnCells
    apply List.mem_filter.mpr
    exact ⟨List.mem_map.mpr ⟨r, hr2.1, rfl⟩, hr2.2⟩
  exact sum_groups_eq (fun r => getCell t.columns r key)
    (fun r => (cellNum (getCell t.columns r val)).getD 0) _ _ hks_nodup hmem

theorem clean_city_nonNull (t : Table) (hC : "City" ∈ t.columns) :
    ∀ r ∈ (load_and_clean_data t).rows,
      (getCell (load_and_clean_data t).columns r "City").isNull = false := by
  rw [clean_spec]
  intro r hr
  have hk := (List.mem_filter.mp hr).2
  unfold keepRow at hk
  have hCmem : "City" ∈ chkCols t.columns := by
    unfold chkCols
    simp [hC]
  have h2 := List.all_eq_true.mp hk "City" hCmem
  simpa using h2

/-- Claim C5: for a cleaned table with City and Total Amount columns, the sum
over all cities of the per-city summed Total Amount equals the sum of Total
Amount over all rows of the cleaned table (no row escapes the grouping
because cleaning removed every null City). -/
theorem claim_C5 (t : Table) (hCity : "City" ∈ t.columns)
    (hTA : "Total Amount" ∈ t.columns) :
    sumVals (groupbySum (load_and_clean_data t) "City" "Total Amount") =
      seriesSum (load_and_clean_data t) "Total Amount" := by
  rw [sumVals_groupbySum_general]
  rw [List.filter_eq_self.mpr]
  · rfl
  · intro r hr
    simp [clean_city_nonNull t hCity r hr]

/-- Witness for claim C5 at a concrete table with both columns. -/
theorem claim_C5_witness :
    ("City" ∈ fullTable.columns ∧ "Total Amount" ∈ fullTable.columns) ∧
      sumVals (groupbySum (load_and_clean_data fullTable) "City" "Total Amount") =
        seriesSum (load_and_clean_data fullTable) "Total Amount" :=
  ⟨⟨by decide, by decide⟩, claim_C5 fullTable (by decide) (by decide)⟩

/-- Claim C7: on the spec's three-row example, the sales-by-city aggregate
yields Delhi 150 and Pune 200, and the arg-max city is Pune. -/
theorem claim_C7 :
    groupbySum exampleCityTable "City" "Total Amount" =
      [(Cell.str "Delhi", 150), (Cell.str "Pune", 200)] ∧
    top_city exampleCityTable = Except.ok (Cell.str "Pune") := by
  have hkeys : sortBy cellLe (nonNullCells exampleCityTable "City").dedup =
      [Cell.str "Delhi", Cell.str "Pune"] := by decide
  constructor
  · rw [groupbySum, hkeys]
    simp +decide [exampleCityTable, getCell, colIdx, cellNum]
    norm_num
  · rw [top_city, if_pos (by decide), groupbySum, hkeys]
    simp +decide [exampleCityTable, getCell, colIdx, cellNum, idxmaxBy, idxmaxGo, ratLtB]
    norm_num

end OnlineShopping

namespace OnlineShopping

theorem sum_map_mul_right_q {β : Type} (l : List β) (g : β → ℚ) (c : ℚ) :
    (l.map (fun x => g x * c)).sum = (l.map g).sum * c := by
  induction l with
  | nil => simp
  | cons x xs ih =>
    simp only [List.map_cons, List.sum_cons, ih]
    ring

theorem sum_map_cast_counts (l : List (Cell × Nat)) :
    (l.map (fun p => ((p.2 : ℚ)))).sum = ((sumCounts l : ℚ)) := by
  unfold sumCounts
  induction l with
  | nil => simp
  | cons x xs ih =>
    simp only [List.map_cons, List.sum_cons, ih]
    push_cast
    ring

/-- Claim C6: when the Gender column exists, is non-empty and has no nulls,
the normalized gender-distribution percentages sum to exactly 100 over
rational arithmetic. -/
theorem claim_C6 (t : Table) (hG : "Gender" ∈ t.columns) (hne : t.rows ≠ [])
    (hnn : ∀ r ∈ t.rows, (getCell t.columns r "Gender").isNull = false) :
    sumVals (gender_dist t) = 100 := by
  unfold gender_dist
  rw [if_pos hG]
  unfold normalizePct sumVals
  rw [List.map_map]
  simp only [Function.comp_def]
  have htot : sumCounts (value_counts t "Gender") = t.rows.length := by
    rw [sumCounts_value_counts]
    unfold nonNullCells
    rw [List.filter_eq_self.mpr]
    · unfold columnCells
      rw [List.length_map]
    · intro x hx
      unfold columnCells at hx
      obtain ⟨r, hr, rfl⟩ := List.mem_map.mp hx
      simp [hnn r hr]
  have hT0 : ((sumCounts (value_counts t "Gender") : ℚ)) ≠ 0 := by
    rw [htot]
    exact Nat.cast_ne_zero.mpr (fun h0 => hne (List.length_eq_zero.mp h0))
  have hterm : ∀ p ∈ value_counts t "Gender",
      ((p.2 : ℚ)) / ((sumCounts (value_counts t "Gender") : ℚ)) * 100 =
        ((p.2 : ℚ)) * (100 / ((sumCounts (value_counts t "Gender") : ℚ))) := by
    intro p _
    ring
  rw [List.map_congr_left hterm]
  rw [sum_map_mul_right_q]
  rw [sum_map_cast_counts]
  field_simp

/-- Witness for claim C6 at a concrete table whose Gender column is total. -/
theorem claim_C6_witness :
    ("Gender" ∈ fullTable.columns ∧ fullTable.rows ≠ [] ∧
      (∀ r ∈ fullTable.rows, (getCell fullTable.columns r "Gender").isNull = false)) ∧
    sumVals (gender_dist fullTable) = 100 :=
  ⟨⟨by decide, by decide, by decide⟩,
    claim_C6 fullTable (by decide) (by decide) (by decide)⟩

end OnlineShopping

namespace OnlineShopping

theorem mem_addMonthColumn_month (t : Table) : "Month" ∈ (addMonthColumn t).columns := by
  unfold addMonthColumn
  cases hMi : colIdx t.columns "Month" with
  | some i =>
    have hmem : "Month" ∈ t.columns := by
      by_contra hn
      rw [(colIdx_eq_none_iff t.columns "Month").mpr hn] at hMi
      exact Option.noConfusion hMi
    simpa using hmem
  | none => simp

theorem mem_addMonthColumn_of_mem (t : Table) (c : String) (h : c ∈ t.columns) :
    c ∈ (addMonthColumn t).columns := by
  unfold addMonthColumn
  cases colIdx t.columns "Month" with
  | some i => simpa using h
  | none => simp [h]

theorem colGet_ok (t : Table) (c : String) (h : c ∈ t.columns) :
    colGet t c = Except.ok (columnCells t c) := by
  unfold colGet
  rw [if_pos h]

theorem categoryChart_ok (t : Table) : ∃ x, categoryChart t = Except.ok x := by
  unfold categoryChart
  by_cases h : "Product Category" ∈ t.columns
  · rw [if_pos h, colGet_ok t _ h]
    exact ⟨some (value_counts t "Product Category"), rfl⟩
  · rw [if_neg h]
    exact ⟨none, rfl⟩

theorem cityBoxChart_ok (t : Table) : ∃ x, cityBoxChart t = Except.ok x := by
  unfold cityBoxChart
  by_cases h : "Total Amount" ∈ t.columns ∧ "City" ∈ t.columns
  · rw [if_pos h, colGet_ok t _ h.1, colGet_ok t _ h.2]
    exact ⟨some (columnCells t "Total Amount", columnCells t "City"), rfl⟩
  · rw [if_neg h]
    exact ⟨none, rfl⟩

theorem genderChart_ok (t : Table) : ∃ x, genderChart t = Except.ok x := by
  unfold genderChart
  by_cases h : "Gender" ∈ t.columns
  · rw [if_pos h, colGet_ok t _ h]
    exact ⟨some (value_counts t "Gender"), rfl⟩
  · rw [if_neg h]
    exact ⟨none, rfl⟩

theorem ageChart_ok (t : Table) : ∃ x, ageChart t = Except.ok x := by
  unfold ageChart
  by_cases h : "Age" ∈ t.columns
  · rw [if_pos h, colGet_ok t _ h]
    exact ⟨some (columnCells t "Age"), rfl⟩
  · rw [if_neg h]
    exact ⟨none, rfl⟩

theorem paymentChart_ok (t : Table) : ∃ x, paymentChart t = Except.ok x := by
  unfold paymentChart
  by_cases h : "Payment mode" ∈ t.columns
  · rw [if_pos h, colGet_ok t _ h]
    exact ⟨some (value_counts t "Payment mode"), rfl⟩
  · rw [if_neg h]
    exact ⟨none, rfl⟩

theorem monthlyChart_ok (t : Table) : ∃ x, monthlyChart t = Except.ok x := by
  unfold monthlyChart
  by_cases h : "Order Date" ∈ t.columns ∧ "Total Amount" ∈ t.columns
  · rw [if_pos h, colGet_ok t _ h.1,
      colGet_ok (addMonthColumn t) _ (mem_addMonthColumn_month t),
      colGet_ok (addMonthColumn t) _ (mem_addMonthColumn_of_mem t _ h.2)]
    exact ⟨(some (monthly_sales t), addMonthColumn t), rfl⟩
  · rw [if_neg h]
    exact ⟨(none, t), rfl⟩

theorem showVisualizations_isOk (t : Table) : (showVisualizations t).isOk = true := by
  obtain ⟨co, hco⟩ := categoryChart_ok t
  obtain ⟨cb, hcb⟩ := cityBoxChart_ok t
  obtain ⟨gc, hgc⟩ := genderChart_ok t
  obtain ⟨ac, hac⟩ := ageChart_ok t
  obtain ⟨pc, hpc⟩ := paymentChart_ok t
  obtain ⟨mt, hmt⟩ := monthlyChart_ok t
  unfold showVisualizations
  rw [hco, hcb, hgc, hac, hpc, hmt]
  simp [Bind.bind, Except.bind, Pure.pure, Except.pure, Except.isOk, Except.toBool]

/-- Claim C8: every summary-insight computation whose required columns are
absent is reported as the "N/A" placeholder (or an empty distribution for
Gender) instead of raising, and with all guarded lookups absent the whole
insights action still succeeds; every visualization chart whose required
columns are absent is skipped rather than raising, and the visualizations
action as a whole never fails, whatever optional columns are missing. -/
theorem claim_C8 (t : Table) :
    ("Product Category" ∉ t.columns → top_category t = Except.ok (Cell.str "N/A")) ∧
    (¬("City" ∈ t.columns ∧ "Total Amount" ∈ t.columns) →
      top_city t = Except.ok (Cell.str "N/A")) ∧
    ("Payment mode" ∉ t.columns → top_payment t = Except.ok (Cell.str "N/A")) ∧
    ("Gender" ∉ t.columns → gender_dist t = []) ∧
    ("Age" ∉ t.columns → avg_age t = Cell.str "N/A") ∧
    ("Product Category" ∉ t.columns → ¬("City" ∈ t.columns ∧ "Total Amount" ∈ t.columns) →
      "Payment mode" ∉ t.columns → (showSummaryInsights t).isOk = true) ∧
    ("Product Category" ∉ t.columns → categoryChart t = Except.ok none) ∧
    (¬("Total Amount" ∈ t.columns ∧ "City" ∈ t.columns) →
      cityBoxChart t = Except.ok none) ∧
    ("Gender" ∉ t.columns → genderChart t = Except.ok none) ∧
    ("Age" ∉ t.columns → ageChart t = Except.ok none) ∧
    ("Payment mode" ∉ t.columns → paymentChart t = Except.ok none) ∧
    (¬("Order Date" ∈ t.columns ∧ "Total Amount" ∈ t.columns) →
      monthlyChart t = Except.ok (none, t)) ∧
    (showVisualizations t).isOk = true := by
  refine ⟨?_, ?_, ?_, ?_, ?_, ?_, ?_, ?_, ?_, ?_, ?_, ?_, ?_⟩
  · intro h
    rw [top_category, if_neg h]
  · intro h
    rw [top_city, if_neg h]
  · intro h
    rw [top_payment, if_neg h]
  · intro h
    rw [gender_dist, if_neg h]
  · intro h
    rw [avg_age, if_neg h]
  · intro h1 h2 h3
    rw [showSummaryInsights]
    rw [top_category, if_neg h1, top_city, if_neg h2, top_payment, if_neg h3]
    rfl
  · intro h
    rw [categoryChart, if_neg h]
    rfl
  · intro h
    rw [cityBoxChart, if_neg h]
    rfl
  · intro h
    rw [genderChart, if_neg h]
    rfl
  · intro h
    rw [ageChart, if_neg h]
    rfl
  · intro h
    rw [paymentChart, if_neg h]
    rfl
  · intro h
    rw [monthlyChart, if_neg h]
    rfl
  · exact showVisualizations_isOk t

/-- Witness for claim C8 at the table with no columns at all. -/
theorem claim_C8_witness :
    top_category emptyTable = Except.ok (Cell.str "N/A") ∧
    top_city emptyTable = Except.ok (Cell.str "N/A") ∧
    top_payment emptyTable = Except.ok (Cell.str "N/A") ∧
    gender_dist emptyTable = [] ∧
    avg_age emptyTable = Cell.str "N/A" ∧
    (showSummaryInsights emptyTable).isOk = true ∧
    categoryChart emptyTable = Except.ok none ∧
    cityBoxChart emptyTable = Except.ok none ∧
    genderChart emptyTable = Except.ok none ∧
    ageChart emptyTable = Except.ok none ∧
    paymentChart emptyTable = Except.ok none ∧
    monthlyChart emptyTable = Except.ok (none, emptyTable) ∧
    (showVisualizations emptyTable).isOk = true :=
  ⟨(claim_C8 emptyTable).1 (by decide),
    (claim_C8 emptyTable).2.1 (by decide),
    (claim_C8 emptyTable).2.2.1 (by decide),
    (claim_C8 emptyTable).2.2.2.1 (by decide),
    (claim_C8 emptyTable).2.2.2.2.1 (by decide),
    (claim_C8 emptyTable).2.2.2.2.2.1 (by decide) (by decide) (by decide),
    (claim_C8 emptyTable).2.2.2.2.2.2.1 (by decide),
    (claim_C8 emptyTable).2.2.2.2.2.2.2.1 (by decide),
    (claim_C8 emptyTable).2.2.2.2.2.2.2.2.1 (by decide),
    (claim_C8 emptyTable).2.2.2.2.2.2.2.2.2.1 (by decide),
    (claim_C8 emptyTable).2.2.2.2.2.2.2.2.2.2.1 (by decide),
    (claim_C8 emptyTable).2.2.2.2.2.2.2.2.2.2.2.1 (by decide),
    (claim_C8 emptyTable).2.2.2.2.2.2.2.2.2.2.2.2⟩

/-- Claim C10: on an empty cleaned table whose columns are present, the three
arg-max insight computations raise (pandas idxmax of an empty series) rather
than producing the "N/A" placeholder: the column-existence guards do not
protect against empty data. -/
theorem claim_C10 (t : Table) (h : t.rows = []) :
    ("Product Category" ∈ t.columns →
      top_category t = Except.error "attempt to get argmax of an empty sequence") ∧
    ("City" ∈ t.columns ∧ "Total Amount" ∈ t.columns →
      top_city t = Except.error "attempt to get argmax of an empty sequence") ∧
    ("Payment mode" ∈ t.columns →
      top_payment t = Except.error "attempt to get argmax of an empty sequence") := by
  have hvc : ∀ c, value_counts t c = [] := by
    intro c
    unfold value_counts tally nonNullCells columnCells
    rw [h]
    rfl
  have hgb : groupbySum t "City" "Total Amount" = [] := by
    unfold groupbySum nonNullCells columnCells
    rw [h]
    rfl
  refine ⟨?_, ?_, ?_⟩
  · intro hm
    rw [top_category, if_pos hm, hvc]
    rfl
  · intro hm
    rw [top_city, if_pos hm, hgb]
    rfl
  · intro hm
    rw [top_payment, if_pos hm, hvc]
    rfl

/-- Witness for claim C10 at a concrete empty table with all three column
sets present. -/
theorem claim_C10_witness :
    top_category emptyRowsTable = Except.error "attempt to get argmax of an empty sequence" ∧
    top_city emptyRowsTable = Except.error "attempt to get argmax of an empty sequence" ∧
    top_payment emptyRowsTable = Except.error "attempt to get argmax of an empty sequence" :=
  ⟨(claim_C10 emptyRowsTable (by decide)).1 (by decide),
    (claim_C10 emptyRowsTable (by decide)).2.1 (by decide),
    (claim_C10 emptyRowsTable (by decide)).2.2 (by decide)⟩

end OnlineShopping

namespace OnlineShopping

theorem getD_append_left (r : List Cell) (m : Cell) (i : Nat) (h : i < r.length) (d : Cell) :
    (r ++ [m]).getD i d = r.getD i d := by
  induction r generalizing i with
  | nil => simp at h
  | cons x xs ih =>
    cases i with
    | zero => rfl
    | succ j => simpa using ih j (by simpa using h)

theorem getD_append_self (r : List Cell) (m : Cell) (d : Cell) :
    (r ++ [m]).getD r.length d = m := by
  induction r with
  | nil => rfl
  | cons x xs ih => simpa using ih

theorem colIdx_append_of_some (cols l : List String) (c : String) (i : Nat)
    (h : colIdx cols c = some i) : colIdx (cols ++ l) c = some i := by
  induction cols generalizing i with
  | nil => simp [colIdx] at h
  | cons x xs ih =>
    rw [colIdx] at h
    rw [List.cons_append, colIdx]
    by_cases hx : x = c
    · rw [if_pos hx] at h ⊢
      exact h
    · rw [if_neg hx] at h ⊢
      cases hc : colIdx xs c with
      | none => rw [hc] at h; simp at h
      | some j =>
        rw [hc] at h
        rw [ih j hc]
        exact h

theorem colIdx_append_self (cols : List String) (c : String) (h : colIdx cols c = none) :
    colIdx (cols ++ [c]) c = some cols.length := by
  induction cols with
  | nil => simp [colIdx]
  | cons x xs ih =>
    rw [colIdx] at h
    by_cases hx : x = c
    · rw [if_pos hx] at h
      simp at h
    · rw [if_neg hx] at h
      have hn : colIdx xs c = none := by
        cases hc : colIdx xs c with
        | none => rfl
        | some j => rw [hc] at h; simp at h
      rw [List.cons_append, colIdx, if_neg hx, ih hn]
      simp

theorem colIdx_append_of_none (cols : List String) (c c2 : String) (h : colIdx cols c = none)
    (hcc : c ≠ c2) : colIdx (cols ++ [c2]) c = none := by
  rw [colIdx_eq_none_iff] at h ⊢
  simp [List.mem_append, h, hcc]

theorem getCell_extend_month (cols : List String) (r : List Cell) (m : Cell)
    (hM : "Month" ∉ cols) (hlen : r.length = cols.length) :
    getCell (cols ++ ["Month"]) (r ++ [m]) "Month" = m := by
  unfold getCell
  rw [colIdx_append_self cols "Month" ((colIdx_eq_none_iff _ _).mpr hM)]
  rw [← hlen]
  exact getD_append_self r m Cell.null

theorem getCell_extend_other (cols : List String) (r : List Cell) (m : Cell)
    (c : String) (hc : c ≠ "Month") (hlen : r.length = cols.length) :
    getCell (cols ++ ["Month"]) (r ++ [m]) c = getCell cols r c := by
  unfold getCell
  cases hci : colIdx cols c with
  | some i =>
    rw [colIdx_append_of_some cols ["Month"] c i hci]
    exact getD_append_left r m i (by rw [hlen]; exact colIdx_lt cols c i hci) Cell.null
  | none =>
    rw [colIdx_append_of_none cols c "Month" hci hc]

theorem addMonthColumn_spec (t : Table) (hM : "Month" ∉ t.columns) :
    addMonthColumn t = ⟨t.columns ++ ["Month"],
      t.rows.map (fun r => r ++ [toPeriodM (getCell t.columns r "Order Date")])⟩ := by
  unfold addMonthColumn
  rw [(colIdx_eq_none_iff t.columns "Month").mpr hM]

/-- Claim C9 counterexample: a cleaned table that retains a row with null
Order Date on which the sum of the monthly totals is not less than the
whole-table Total Amount sum (the excluded row's amount is 0, so the two
sums are equal). -/
theorem claim_C9_counterexample :
    ((load_and_clean_data nullDateZeroTable).rows.any
      (fun r => (getCell (load_and_clean_data nullDateZeroTable).columns r "Order Date").isNull))
      = true ∧
    ¬(sumVals (monthly_sales (load_and_clean_data nullDateZeroTable)) <
        seriesSum (load_and_clean_data nullDateZeroTable) "Total Amount") := by
  constructor
  · decide
  · have hclean : load_and_clean_data nullDateZeroTable = nullDateZeroTable := by decide
    rw [hclean]
    have hadd : addMonthColumn nullDateZeroTable =
        ⟨["Order Date", "Total Amount", "City", "Month"],
          [[Cell.null, Cell.num 0, Cell.str "X", Cell.null],
           [Cell.date 2024 1 15, Cell.num 10, Cell.str "Delhi", Cell.period 2024 1]]⟩ := by
      decide
    rw [monthly_sales, hadd]
    have hkeys : sortBy cellLe (nonNullCells (⟨["Order Date", "Total Amount", "City", "Month"],
        [[Cell.null, Cell.num 0, Cell.str "X", Cell.null],
         [Cell.date 2024 1 15, Cell.num 10, Cell.str "Delhi", Cell.period 2024 1]]⟩ : Table)
          "Month").dedup = [Cell.period 2024 1] := by decide
    rw [groupbySum, hkeys]
    simp +decide [getCell, colIdx, cellNum, sumVals, seriesSum, nullDateZeroTable]

/-- Claim C9 (amended): rows whose Order Date is null (or otherwise yields a
null Month key) are silently excluded from the per-month grouping even though
they remain in the table; the sum of the monthly totals equals the Total
Amount summed over exactly the rows with a parsed Order Date, so it falls
short of the whole-table sum by the excluded rows' total, which is strict
only when that total is positive. -/
theorem claim_C9_amended (t : Table) (hM : "Month" ∉ t.columns)
    (hal : ∀ r ∈ t.rows, r.length = t.columns.length) :
    sumVals (monthly_sales t) =
      ((t.rows.filter
          (fun r => !(toPeriodM (getCell t.columns r "Order Date")).isNull)).map
        (fun r => (cellNum (getCell t.columns r "Total Amount")).getD 0)).sum := by
  rw [monthly_sales, addMonthColumn_spec t hM]
  rw [sumVals_groupbySum_general]
  rw [List.filter_map]
  rw [List.map_map]
  have hfil : t.rows.filter
      ((fun x => !(getCell (t.columns ++ ["Month"]) x "Month").isNull) ∘
        (fun r => r ++ [toPeriodM (getCell t.columns r "Order Date")])) =
      t.rows.filter
        (fun r => !(toPeriodM (getCell t.columns r "Order Date")).isNull) := by
    apply List.filter_congr
    intro r hr
    simp only [Function.comp_def]
    rw [getCell_extend_month t.columns r _ hM (hal r hr)]
  rw [hfil]
  congr 1
  apply List.map_congr_left
  intro r hr
  have hr2 := (List.mem_filter.mp hr).1
  show (cellNum (getCell (t.columns ++ ["Month"])
      (r ++ [toPeriodM (getCell t.columns r "Order Date")]) "Total Amount")).getD 0 =
    (cellNum (getCell t.columns r "Total Amount")).getD 0
  rw [getCell_extend_other t.columns r _ "Total Amount" (by decide) (hal r hr2)]

/-- Witness for the amended claim C9 at the cleaned concrete table that
retains one null-Order-Date row. -/
theorem claim_C9_amended_witness :
    ("Month" ∉ (load_and_clean_data nullDateZeroTable).columns ∧
      (∀ r ∈ (load_and_clean_data nullDateZeroTable).rows,
        r.length = (load_and_clean_data nullDateZeroTable).columns.length)) ∧
    sumVals (monthly_sales (load_and_clean_data nullDateZeroTable)) =
      (((load_and_clean_data nullDateZeroTable).rows.filter
          (fun r => !(toPeriodM (getCell (load_and_clean_data nullDateZeroTable).columns r
            "Order Date")).isNull)).map
        (fun r => (cellNum (getCell (load_and_clean_data nullDateZeroTable).columns r
          "Total Amount")).getD 0)).sum :=
  ⟨⟨by decide, by decide⟩,
    claim_C9_amended (load_and_clean_data nullDateZeroTable) (by decide) (by decide)⟩

end OnlineShopping

namespace OnlineShopping

/-- Claim C1 counterexample: on a cleaned table with Order Date and Total
Amount columns, running the visualizations action changes the table: it
appends a derived Month column (app.py line 106). -/
theorem claim_C1_counterexample :
    (showVisualizationsTable (load_and_clean_data datedTable)).columns =
      (load_and_clean_data datedTable).columns ++ ["Month"] ∧
    showVisualizationsTable (load_and_clean_data datedTable) ≠
      load_and_clean_data datedTable := by decide

/-- Claim C1 (amended): the statistics and insights actions leave the table
unchanged; the visualizations action creates, updates and deletes no row and
leaves every column other than Month untouched, but when both Order Date and
Total Amount exist it writes a derived Month column (appending it when
absent), so the table is not unchanged in that case. -/
theorem claim_C1_amended (t : Table) (hal : ∀ r ∈ t.rows, r.length = t.columns.length) :
    (showStatistics t).2 = t ∧
    showSummaryInsightsTable t = t ∧
    (showVisualizationsTable t).rows.length = t.rows.length ∧
    ((showVisualizationsTable t).columns = t.columns ∨
      (showVisualizationsTable t).columns = t.columns ++ ["Month"]) ∧
    (∀ c ∈ t.columns, c ≠ "Month" →
      columnCells (showVisualizationsTable t) c = columnCells t c) := by
  by_cases hg : ("Order Date" ∈ t.columns ∧ "Total Amount" ∈ t.columns)
  · cases hMi : colIdx t.columns "Month" with
    | some i =>
      have hup : addMonthColumn t = ⟨t.columns,
          t.rows.map (fun r =>
            updAt (fun _ => toPeriodM (getCell t.columns r "Order Date")) i r)⟩ := by
        unfold addMonthColumn
        rw [hMi]
      refine ⟨rfl, rfl, ?_, ?_, ?_⟩
      · rw [showVisualizationsTable, if_pos hg, hup]
        simp
      · left
        rw [showVisualizationsTable, if_pos hg, hup]
      · intro c hc hcM
        rw [showVisualizationsTable, if_pos hg, hup]
        unfold columnCells
        rw [List.map_map]
        apply List.map_congr_left
        intro r hr
        obtain ⟨j, hj⟩ := colIdx_isSome_of_mem t.columns c hc
        show getCell t.columns
            (updAt (fun _ => toPeriodM (getCell t.columns r "Order Date")) i r) c =
          getCell t.columns r c
        unfold getCell
        rw [hj]
        exact getD_updAt_ne _ i j
          (colIdx_ne t.columns "Month" c i j hMi hj (Ne.symm hcM)) r Cell.null
    | none =>
      have hM : "Month" ∉ t.columns := (colIdx_eq_none_iff _ _).mp hMi
      refine ⟨rfl, rfl, ?_, ?_, ?_⟩
      · rw [showVisualizationsTable, if_pos hg, addMonthColumn_spec t hM]
        simp
      · right
        rw [showVisualizationsTable, if_pos hg, addMonthColumn_spec t hM]
      · intro c hc hcM
        rw [showVisualizationsTable, if_pos hg, addMonthColumn_spec t hM]
        unfold columnCells
        rw [List.map_map]
        apply List.map_congr_left
        intro r hr
        show getCell (t.columns ++ ["Month"])
            (r ++ [toPeriodM (getCell t.columns r "Order Date")]) c =
          getCell t.columns r c
        exact getCell_extend_other t.columns r _ c hcM (hal r hr)
  · refine ⟨rfl, rfl, ?_, ?_, ?_⟩
    · rw [showVisualizationsTable, if_neg hg]
    · left
      rw [showVisualizationsTable, if_neg hg]
    · intro c hc hcM
      rw [showVisualizationsTable, if_neg hg]

/-- Witness for the amended claim C1 at a concrete aligned table. -/
theorem claim_C1_amended_witness :
    (∀ r ∈ fullTable.rows, r.length = fullTable.columns.length) ∧
    ((showStatistics fullTable).2 = fullTable ∧
      showSummaryInsightsTable fullTable = fullTable ∧
      (showVisualizationsTable fullTable).rows.length = fullTable.rows.length ∧
      ((showVisualizationsTable fullTable).columns = fullTable.columns ∨
        (showVisualizationsTable fullTable).columns = fullTable.columns ++ ["Month"]) ∧
      (∀ c ∈ fullTable.columns, c ≠ "Month" →
        columnCells (showVisualizationsTable fullTable) c = columnCells fullTable c)) :=
  ⟨by decide, claim_C1_amended fullTable (by decide)⟩

end OnlineShopping
